import Mathlib

/-!
Shallow embedding of the taxi dispatch simulator (`entities.py`, `services.py`).

Conventions of the embedding:

* Python object references between `Taxi`, `Order` and `Client` are mutual, so
  entities are stored in id-indexed maps (`ℕ → Taxi`, …) inside a single record
  `SimState`, and a reference to an object is the object's id (`Option ℕ` for a
  nullable reference).  `SimState.fleet` is the `TaxiService.taxis` list (the
  iteration order of the scan), `SimState.queue` is the shared `order_queue`
  (head = front, FIFO), `SimState.running` is `TaxiService.is_running`.
* Machine floats are modelled exactly: coordinates are `ℤ × ℤ` (Python ints),
  speeds are `ℚ`, `math.sqrt` is `Real.sqrt`, Python's truncating `int(...)`
  conversion is `pytruncQ` / `pytruncR` (floor for nonnegative arguments,
  ceiling for negative ones).
* Each maximal lock-protected or uninterrupted block of a worker function is
  one atomic state transformer; thread interleaving is the free interleaving
  of those transformers (relations `StepNR` / `Step` below).  In particular
  `DispatcherService._process_order` splits at its only suspension point, the
  acquisition of `taxi.lock`, into `scan_act` (cancellation check plus
  `find_nearest_taxi`, ending with the candidate recorded in the dispatcher's
  thread-local state `dpending`) and `commit_act` (the `with taxi.lock:`
  block, `assigned_event.set()`, and the spawn of the ride thread into
  `rides`).
* Logging (`print`, `log_queue`), the dispatcher statistics counter and the
  GUI are observability only and are omitted; `uuid`, `created_at` and
  `color` fields are identity/rendering data never read by the modelled code.
* Exceptions in `TaxiService.simulate_ride` are modelled by the oracle
  parameter `fault : Option RideFault` saying whether one of the two movement
  legs raises; the `except` handler of the source is then run.  The handler
  swallows the exception, so the embedded function is total.
-/

namespace TaxisThread

/-- Enum `TaxiStatus` of `entities.py` (values `FREE`, `BUSY`, `ON_WAY`,
`MOVING_TO_CLIENT`, `ON_RIDE`). -/
inductive TaxiStatus where
  | FREE
  | BUSY
  | ON_WAY
  | MOVING_TO_CLIENT
  | ON_RIDE
deriving DecidableEq

/-- Enum `ClientStatus` of `entities.py`. -/
inductive ClientStatus where
  | WAITING
  | ON_RIDE
  | ARRIVED
  | REFUSED
deriving DecidableEq

/-- Dataclass `Taxi` of `entities.py`: mutable `status`, `location` and the
nullable back reference `order` (an order id here).  The per-taxi
`threading.Lock` is represented by the atomicity of the state transformers
below, `color` is rendering data. -/
structure Taxi where
  id : ℕ
  speed : ℚ
  status : TaxiStatus
  location : ℤ × ℤ
  order : Option ℕ
deriving DecidableEq

/-- Dataclass `Order` of `entities.py`: owning client id, the two coordinates,
the nullable assigned-taxi reference, the monotone `is_cancelled` flag and the
flag of the one-shot `threading.Event` `assigned_event`. -/
structure Order where
  client : ℕ
  from_location : ℤ × ℤ
  to_location : ℤ × ℤ
  taxi : Option ℕ := none
  is_cancelled : Bool := false
  assigned_event : Bool := false
deriving DecidableEq

/-- Dataclass `Client` of `entities.py`. -/
structure Client where
  id : ℕ
  location : ℤ × ℤ
  patience_timeout : ℚ
  current_order : Option ℕ := none
  status : ClientStatus := ClientStatus.WAITING
deriving DecidableEq

/-- The shared mutable state of the whole simulator.  `dpending` is the
thread-local program counter of each dispatcher worker: `some (oid, tid)`
means the worker holds order `oid` and candidate taxi `tid` between the
read-only scan and the `with taxi.lock:` commit block of
`DispatcherService._process_order`.  `rides` is the pool of ride-executor
threads spawned by `_process_order` and not yet run. -/
structure SimState where
  taxis : ℕ → Taxi
  orders : ℕ → Order
  clients : ℕ → Client
  fleet : List ℕ
  queue : List ℕ
  dpending : ℕ → Option (ℕ × ℕ)
  rides : List (ℕ × ℕ)
  running : Bool

/-! ## Geometry (`GeometryUtils`) -/

/-- The radicand of `GeometryUtils.calculate_distance`:
`(b.x - a.x)**2 + (b.y - a.y)**2`.  The source takes `math.sqrt` of this sum;
the sum is kept as a separate computable function because `Real.sqrt` is
strictly monotone, so every comparison of distances in the source equals the
comparison of these squares. -/
def dist_sq (a b : ℤ × ℤ) : ℤ := (b.1 - a.1) ^ 2 + (b.2 - a.2) ^ 2

/-- `GeometryUtils.calculate_distance`: Euclidean distance
`sqrt((b.x - a.x)**2 + (b.y - a.y)**2)`. -/
noncomputable def calculate_distance (a b : ℤ × ℤ) : ℝ :=
  Real.sqrt ((dist_sq a b : ℤ) : ℝ)

/-- Python's `int(...)` conversion on a rational value: truncation toward
zero. -/
def pytruncQ (q : ℚ) : ℤ := if 0 ≤ q then ⌊q⌋ else ⌈q⌉

/-- Python's `int(...)` conversion on a real value: truncation toward zero. -/
noncomputable def pytruncR (x : ℝ) : ℤ := if 0 ≤ x then ⌊x⌋ else ⌈x⌉

/-- `GeometryUtils.calculate_movement_steps`:
`max(2, int(distance / speed))`. -/
noncomputable def calculate_movement_steps (a b : ℤ × ℤ) (speed : ℚ) : ℤ :=
  max 2 (pytruncR (calculate_distance a b / (speed : ℝ)))

/-! ## Movement (`TaxiService._move_taxi_to_target`) -/

/-- One iteration of the interpolation loop of `_move_taxi_to_target`:
`progress = (step + 1) / steps`, then the new location is
`int(current + delta * progress)` componentwise.  `cur` and `target` are the
values captured before the loop (the source reads them once). -/
def move_step (cur target : ℤ × ℤ) (k : ℕ) (steps : ℤ) : ℤ × ℤ :=
  let progress : ℚ := ((k : ℚ) + 1) / ((steps : ℤ) : ℚ)
  (pytruncQ ((cur.1 : ℚ) + ((target.1 - cur.1 : ℤ) : ℚ) * progress),
   pytruncQ ((cur.2 : ℚ) + ((target.2 - cur.2 : ℤ) : ℚ) * progress))

/-- `TaxiService._move_taxi_to_target`, returning the final location of the
taxi.  `running` is `self.is_running` and `halt` is the truth value of
`taxi.order and taxi.order.is_cancelled`; both are loop invariants of one
atomic execution, so the loop either breaks at its first iteration check
(location unchanged) or runs every iteration, each iteration overwriting the
location with `move_step`.  The `steps <= 0` guard of the source (which would
teleport to the target) is kept although `calculate_movement_steps` makes it
dead code. -/
noncomputable def move_taxi_to_target (running halt : Bool)
    (cur target : ℤ × ℤ) (speed : ℚ) : ℤ × ℤ :=
  let steps := calculate_movement_steps cur target speed
  if steps ≤ 0 then target
  else
    (List.range steps.toNat).foldl
      (fun loc k => if running = false ∨ halt = true then loc
                    else move_step cur target k steps) cur

/-! ## The fleet scan (`TaxiService.find_nearest_taxi`) -/

/-- Body of the scan loop of `TaxiService.find_nearest_taxi`: under the
taxi's lock, if the taxi is observed `FREE` its distance to the target is
compared (strictly) against the minimum so far.  The accumulator is
`none` (meaning `nearest_taxi = None`, `min_distance = inf`) or
`some (tid, d)` with `d` the squared distance of the current nearest taxi;
since `sqrt` is strictly monotone, comparing squared distances is exactly the
source's comparison of `calculate_distance` values. -/
def scanStep (tx : ℕ → Taxi) (target : ℤ × ℤ) (acc : Option (ℕ × ℤ))
    (tid : ℕ) : Option (ℕ × ℤ) :=
  if (tx tid).status = TaxiStatus.FREE then
    match acc with
    | none => some (tid, dist_sq (tx tid).location target)
    | some (b, dmin) =>
        if dist_sq (tx tid).location target < dmin
        then some (tid, dist_sq (tx tid).location target)
        else some (b, dmin)
  else acc

/-- The `for taxi in self.taxis:` loop of `find_nearest_taxi`. -/
def scanFold (tx : ℕ → Taxi) (target : ℤ × ℤ) :
    List ℕ → Option (ℕ × ℤ) → Option (ℕ × ℤ)
  | [], acc => acc
  | tid :: rest, acc => scanFold tx target rest (scanStep tx target acc tid)

/-- `TaxiService.find_nearest_taxi`: scans the fleet list and returns the
nearest taxi observed `FREE`, or `none`. -/
def find_nearest_taxi (s : SimState) (target : ℤ × ℤ) : Option ℕ :=
  (scanFold s.taxis target s.fleet none).map Prod.fst

/-! ## `Order.cancel` (entities.py) -/

/-- `Order.cancel`: set `is_cancelled = True` unconditionally, then, if the
order's taxi reference is non-null, under that taxi's lock set its status to
`FREE` and clear its order reference.  Note that the method neither checks
whether the order was already cancelled nor clears the order's own `taxi`
reference. -/
def Order.cancel (s : SimState) (oid : ℕ) : SimState :=
  let o1 : Order := { s.orders oid with is_cancelled := true }
  let s1 : SimState := { s with orders := Function.update s.orders oid o1 }
  match (s1.orders oid).taxi with
  | some tid =>
      let t1 : Taxi := { s1.taxis tid with status := TaxiStatus.FREE, order := none }
      { s1 with taxis := Function.update s1.taxis tid t1 }
  | none => s1

/-! ## Client impatience (`ClientService._client_waiting_worker`) -/

/-- `ClientService._client_waiting_worker`: `assigned` is the value returned
by `order.assigned_event.wait(timeout=patience)`.  `wait` can return `false`
even when the event has just been set (the timeout races the `set`), so
`assigned` is an oracle parameter of the step.  If the wait timed out and the
order is not already cancelled, the worker cancels the order and sets the
client's status to `REFUSED`; otherwise it exits without any action. -/
def client_waiting_worker (s : SimState) (cid : ℕ) (assigned : Bool) : SimState :=
  match (s.clients cid).current_order with
  | none => s
  | some oid =>
      if assigned = false ∧ (s.orders oid).is_cancelled = false then
        let s1 := Order.cancel s oid
        let c1 : Client := { s1.clients cid with status := ClientStatus.REFUSED }
        { s1 with clients := Function.update s1.clients cid c1 }
      else s

/-! ## Dispatch (`DispatcherService._dispatcher_worker` / `_process_order`)

`_process_order` has exactly one suspension point, the acquisition of
`taxi.lock` before the commit; the worker is split there.  `scan_act` is the
dequeue (`order_queue.get`) plus the first half of `_process_order`: drop the
order if already cancelled, otherwise run `find_nearest_taxi`; requeue at the
tail if no taxi was found, else remember the candidate in the dispatcher's
thread-local state.  `commit_act` is the second half: the `with taxi.lock:`
block (which sets `status = BUSY`, `taxi.order = order`, `order.taxi = taxi`
without re-checking the status), `assigned_event.set()`, and the spawn of the
ride-executor thread. -/

/-- Dequeue plus the scan half of `DispatcherService._process_order`. -/
def scan_act (s : SimState) (did : ℕ) : SimState :=
  match s.queue with
  | [] => s
  | oid :: rest =>
      if (s.orders oid).is_cancelled then { s with queue := rest }
      else
        match find_nearest_taxi s (s.orders oid).from_location with
        | none => { s with queue := rest ++ [oid] }
        | some tid =>
            { s with queue := rest,
                     dpending := Function.update s.dpending did (some (oid, tid)) }

/-- The commit half of `DispatcherService._process_order`. -/
def commit_act (s : SimState) (did : ℕ) : SimState :=
  match s.dpending did with
  | none => s
  | some (oid, tid) =>
      let t1 : Taxi := { s.taxis tid with status := TaxiStatus.BUSY, order := some oid }
      let o1 : Order := { s.orders oid with taxi := some tid }
      let s1 : SimState :=
        { s with taxis := Function.update s.taxis tid t1,
                 orders := Function.update s.orders oid o1 }
      let o2 : Order := { s1.orders oid with assigned_event := true }
      let s2 : SimState := { s1 with orders := Function.update s1.orders oid o2 }
      { s2 with rides := s2.rides ++ [(tid, oid)],
                dpending := Function.update s.dpending did none }

/-! ## The ride executor (`TaxiService.simulate_ride`) -/

/-- The oracle saying whether an unexpected exception is raised during one of
the two movement legs of `simulate_ride`. -/
inductive RideFault where
  | duringPickup
  | duringDropoff
deriving DecidableEq

/-- The break condition `taxi.order and taxi.order.is_cancelled` read by the
movement loop (note: it reads the taxi's own order reference, which need not
be the order the ride was spawned for). -/
def breakFlag (s : SimState) (tid : ℕ) : Bool :=
  match (s.taxis tid).order with
  | some oid => (s.orders oid).is_cancelled
  | none => false

/-- Effect of `TaxiService._move_taxi_to_target` on the state: only the
taxi's location changes. -/
noncomputable def ride_move (s : SimState) (tid : ℕ) (target : ℤ × ℤ) : SimState :=
  let newloc := move_taxi_to_target s.running (breakFlag s tid) (s.taxis tid).location target (s.taxis tid).speed
  let t1 : Taxi := { s.taxis tid with location := newloc }
  { s with taxis := Function.update s.taxis tid t1 }

/-- `TaxiService.simulate_ride`: move to the client, return (without any
cleanup!) if the order is cancelled, pick the client up (`ON_RIDE` for taxi
and client), move to the destination, then release the taxi.  A fault during
either movement leg is caught by the `except` handler, which sets the taxi
`FREE` and clears its order reference.  The handler never reads the location,
so the location at the instant of the fault is left as it was when the leg
started. -/
noncomputable def simulate_ride (s : SimState) (tid oid : ℕ)
    (fault : Option RideFault) : SimState :=
  let tMoving : Taxi := { s.taxis tid with status := TaxiStatus.MOVING_TO_CLIENT }
  let s1 : SimState := { s with taxis := Function.update s.taxis tid tMoving }
  if fault = some RideFault.duringPickup then
    let tCaught : Taxi := { s1.taxis tid with status := TaxiStatus.FREE, order := none }
    { s1 with taxis := Function.update s1.taxis tid tCaught }
  else
    let s2 := ride_move s1 tid (s1.orders oid).from_location
    if (s2.orders oid).is_cancelled then s2
    else
      let tRide : Taxi := { s2.taxis tid with status := TaxiStatus.ON_RIDE }
      let s3 : SimState := { s2 with taxis := Function.update s2.taxis tid tRide }
      let cid := (s3.orders oid).client
      let cRide : Client := { s3.clients cid with status := ClientStatus.ON_RIDE }
      let s4 : SimState := { s3 with clients := Function.update s3.clients cid cRide }
      if fault = some RideFault.duringDropoff then
        let tCaught : Taxi := { s4.taxis tid with status := TaxiStatus.FREE, order := none }
        { s4 with taxis := Function.update s4.taxis tid tCaught }
      else
        let s5 := ride_move s4 tid (s4.orders oid).to_location
        let tDone : Taxi := { s5.taxis tid with status := TaxiStatus.FREE, order := none }
        { s5 with taxis := Function.update s5.taxis tid tDone }

/-- Running one of the spawned ride-executor threads: remove it from the pool
and run `simulate_ride`. -/
noncomputable def ride_act (s : SimState) (tid oid : ℕ)
    (fault : Option RideFault) : SimState :=
  simulate_ride { s with rides := s.rides.erase (tid, oid) } tid oid fault

/-! ## Thread interleaving -/

/-- One atomic step of the system, ride-executor steps excluded (the steps of
the matching engine and of the impatience monitors).  A dispatcher may only
scan when it is not holding a candidate, and commits exactly the candidate it
holds. -/
inductive StepNR : SimState → SimState → Prop where
  | scan : ∀ (s : SimState) (did : ℕ),
      s.dpending did = none → StepNR s (scan_act s did)
  | commit : ∀ (s : SimState) (did : ℕ), StepNR s (commit_act s did)
  | client : ∀ (s : SimState) (cid : ℕ) (b : Bool),
      StepNR s (client_waiting_worker s cid b)

/-- One atomic step of the full system, including ride-executor steps (a ride
step must have been spawned by a commit). -/
inductive Step : SimState → SimState → Prop where
  | scan : ∀ (s : SimState) (did : ℕ),
      s.dpending did = none → Step s (scan_act s did)
  | commit : ∀ (s : SimState) (did : ℕ), Step s (commit_act s did)
  | client : ∀ (s : SimState) (cid : ℕ) (b : Bool),
      Step s (client_waiting_worker s cid b)
  | ride : ∀ (s : SimState) (tid oid : ℕ) (fault : Option RideFault),
      (tid, oid) ∈ s.rides → Step s (ride_act s tid oid fault)

/-- Reachability by interleaved dispatcher and impatience-monitor steps. -/
def ReachNR : SimState → SimState → Prop := Relation.ReflTransGen StepNR

/-- Reachability by interleaved steps of the full system. -/
def Reach : SimState → SimState → Prop := Relation.ReflTransGen Step

/-! ## Invariants -/

/-- The vehicle-local invariant of the spec: a taxi's order reference is
non-null iff its status is not `FREE`. -/
def Inv1 (s : SimState) : Prop :=
  ∀ tid : ℕ, (s.taxis tid).order ≠ none ↔ (s.taxis tid).status ≠ TaxiStatus.FREE

/-- The back-reference invariant: a taxi's order reference, when non-null,
is an order whose taxi reference points back to that taxi. -/
def Inv2 (s : SimState) : Prop :=
  ∀ tid oid : ℕ, (s.taxis tid).order = some oid → (s.orders oid).taxi = some tid

/-- Orders sitting in the shared queue have not been assigned yet. -/
def InvQ (s : SimState) : Prop :=
  ∀ oid ∈ s.queue, (s.orders oid).assigned_event = false

/-- Orders held by a dispatcher between scan and commit have not been
assigned yet. -/
def InvP (s : SimState) : Prop :=
  ∀ did oid tid : ℕ, s.dpending did = some (oid, tid) →
    (s.orders oid).assigned_event = false

/-- An order referenced by some taxi has been through a commit. -/
def InvT (s : SimState) : Prop :=
  ∀ tid oid : ℕ, (s.taxis tid).order = some oid →
    (s.orders oid).assigned_event = true

/-- The queue holds each order at most once. -/
def InvN (s : SimState) : Prop := s.queue.Nodup

/-- An order held by a dispatcher is not also in the queue. -/
def InvQP (s : SimState) : Prop :=
  ∀ did oid tid : ℕ, s.dpending did = some (oid, tid) → oid ∉ s.queue

/-- Two different dispatchers never hold the same order. -/
def InvPP (s : SimState) : Prop :=
  ∀ did did' oid tid tid' : ℕ, did ≠ did' →
    s.dpending did = some (oid, tid) → s.dpending did' = some (oid, tid') → False

/-- The inductive strengthening: the two spec invariants together with the
bookkeeping facts that make them stable under dispatcher and cancellation
steps. -/
def StrongInv (s : SimState) : Prop :=
  Inv1 s ∧ Inv2 s ∧ InvQ s ∧ InvP s ∧ InvT s ∧ InvN s ∧ InvQP s ∧ InvPP s

/-- A well-formed initial state: every taxi `FREE` with no order reference,
every order unassigned with its event unset, a duplicate-free queue, and no
dispatcher mid-flight. -/
def Init (s : SimState) : Prop :=
  (∀ tid : ℕ, (s.taxis tid).status = TaxiStatus.FREE ∧ (s.taxis tid).order = none)
  ∧ (∀ oid : ℕ, (s.orders oid).taxi = none ∧ (s.orders oid).assigned_event = false)
  ∧ s.queue.Nodup
  ∧ (∀ did : ℕ, s.dpending did = none)

/-! ## Concrete example states

These finite states instantiate the theorems below on explicit inputs.  All
of them use fleet `[0]` (or `[0, 1]`), ids as map keys, and speed `5`. -/

/-- A free taxi parked at the origin. -/
def taxiF : Taxi := { id := 0, speed := 5, status := TaxiStatus.FREE, location := (0, 0), order := none }

/-- A fresh order of client `c` from the origin to `(1, 1)`. -/
def mkOrder (c : ℕ) : Order := { client := c, from_location := (0, 0), to_location := (1, 1) }

/-- A waiting client whose current order has the same id as the client. -/
def mkClient (c : ℕ) : Client := { id := c, location := (0, 0), patience_timeout := 5, current_order := some c }

/-- Initial state with one free taxi and two queued orders, processed by two
dispatcher workers. -/
def s0C1 : SimState :=
  { taxis := fun _ => taxiF, orders := fun oid => mkOrder oid,
    clients := fun cid => mkClient cid, fleet := [0], queue := [0, 1],
    dpending := fun _ => none, rides := [], running := true }

/-- Dispatcher 0 scans order 0 and selects taxi 0 as candidate. -/
def sC1a : SimState := scan_act s0C1 0

/-- Dispatcher 1 scans order 1 and also selects taxi 0 (still observed
`FREE`). -/
def sC1b : SimState := scan_act sC1a 1

/-- Dispatcher 0 commits taxi 0 to order 0. -/
def sC1c : SimState := commit_act sC1b 0

/-- Dispatcher 1 commits taxi 0 to order 1, although taxi 0 is `BUSY`. -/
def sC1d : SimState := commit_act sC1c 1

/-- Initial state with one free taxi and one queued order. -/
def s0C2 : SimState :=
  { taxis := fun _ => taxiF, orders := fun oid => mkOrder oid,
    clients := fun cid => mkClient cid, fleet := [0], queue := [0],
    dpending := fun _ => none, rides := [], running := true }

/-- Dispatcher 0 scans order 0 and selects taxi 0. -/
def sC2a : SimState := scan_act s0C2 0

/-- Dispatcher 0 commits taxi 0 to order 0 and spawns the ride thread. -/
def sC2b : SimState := commit_act sC2a 0

/-- Client 0's `assigned_event.wait` lost the race to the `set` (it timed
out while the commit was in flight), so the impatience monitor cancels the
already-assigned order; the cancellation frees taxi 0 and clears its order
reference. -/
def sC2c : SimState := client_waiting_worker sC2b 0 false

/-- The spawned ride executor now runs on the freed taxi. -/
noncomputable def sC2d : SimState := ride_act sC2c 0 0 none

/-- A state in which order 0 is already cancelled (its taxi reference, never
cleared by `Order.cancel`, still names taxi 0) while taxi 0 has meanwhile
been assigned to order 1. -/
def sC3 : SimState :=
  { taxis := fun _ => { id := 0, speed := 5, status := TaxiStatus.BUSY, location := (0, 0), order := some 1 },
    orders := fun oid =>
      if oid = 0 then { mkOrder 0 with taxi := some 0, is_cancelled := true, assigned_event := true }
      else { mkOrder oid with taxi := some 0, assigned_event := true },
    clients := fun cid => mkClient cid, fleet := [0], queue := [],
    dpending := fun _ => none, rides := [], running := true }

/-- A post-assignment state in which order 0 (assigned to taxi 0) has been
cancelled before its ride executor ran: taxi 0 is `BUSY` and references
order 0, order 0 references taxi 0 and is cancelled. -/
def sC4 : SimState :=
  { taxis := fun _ => { id := 0, speed := 5, status := TaxiStatus.BUSY, location := (0, 0), order := some 0 },
    orders := fun oid => { mkOrder oid with taxi := some 0, is_cancelled := true, assigned_event := true },
    clients := fun cid => mkClient cid, fleet := [0], queue := [],
    dpending := fun _ => none, rides := [], running := true }

/-- A healthy post-assignment state: taxi 0 is `BUSY` on order 0, which is
not cancelled; client 0 is waiting. -/
def sC5 : SimState :=
  { taxis := fun _ => { id := 0, speed := 5, status := TaxiStatus.BUSY, location := (0, 0), order := some 0 },
    orders := fun oid => { mkOrder oid with taxi := some 0, assigned_event := true },
    clients := fun cid => mkClient cid, fleet := [0], queue := [],
    dpending := fun _ => none, rides := [], running := true }

/-- A fleet of two free taxis at distances 5 and 1 from the origin. -/
def sC8 : SimState :=
  { taxis := fun tid =>
      if tid = 0 then { id := 0, speed := 5, status := TaxiStatus.FREE, location := (5, 0), order := none }
      else { id := tid, speed := 5, status := TaxiStatus.FREE, location := (1, 0), order := none },
    orders := fun oid => mkOrder oid, clients := fun cid => mkClient cid,
    fleet := [0, 1], queue := [], dpending := fun _ => none, rides := [],
    running := true }

/-- A queue holding one already-cancelled order. -/
def sC9 : SimState :=
  { taxis := fun _ => taxiF,
    orders := fun oid => { mkOrder oid with is_cancelled := true },
    clients := fun cid => mkClient cid, fleet := [0], queue := [0],
    dpending := fun _ => none, rides := [], running := true }

/-! ### Helper lemmas about movement -/

/-- The step count is at least `2` whatever the distance and speed are. -/
lemma steps_ge_two (a b : ℤ × ℤ) (speed : ℚ) :
    2 ≤ calculate_movement_steps a b speed :=
  le_max_left _ _

lemma foldl_keep {α β : Type} (init : α) (l : List β) :
    l.foldl (fun loc _ => loc) init = init := by
  induction l with
  | nil => rfl
  | cons x xs ih => simp only [List.foldl_cons]; exact ih

lemma foldl_last {α : Type} (f : ℕ → α) (init : α) (n : ℕ) :
    (List.range (n + 1)).foldl (fun _ k => f k) init = f n := by
  simp [List.range_succ]

lemma pytruncQ_intCast (n : ℤ) : pytruncQ (n : ℚ) = n := by
  unfold pytruncQ
  split <;> simp

/-- With the running flag true and no cancellation the loop performs all of
its `steps ≥ 2` iterations, and the last one has `progress = steps / steps
= 1`, which lands exactly on the (integer) target. -/
lemma move_taxi_complete (cur target : ℤ × ℤ) (speed : ℚ) :
    move_taxi_to_target true false cur target speed = target := by
  unfold move_taxi_to_target
  have h2 : 2 ≤ calculate_movement_steps cur target speed := steps_ge_two cur target speed
  have hpos : ¬ calculate_movement_steps cur target speed ≤ 0 := by omega
  rw [if_neg hpos]
  set s : ℤ := calculate_movement_steps cur target speed with hs
  have hn2 : 2 ≤ s.toNat := by omega
  have hcast : ((s.toNat : ℤ) : ℚ) = ((s : ℤ) : ℚ) := by
    exact_mod_cast congrArg (fun z : ℤ => (z : ℚ)) (Int.toNat_of_nonneg (by omega))
  have hrange : s.toNat = (s.toNat - 1) + 1 := by omega
  have hfun :
      (fun (loc : ℤ × ℤ) (k : ℕ) =>
        if true = false ∨ false = true then loc else move_step cur target k s) =
      (fun (_ : ℤ × ℤ) (k : ℕ) => move_step cur target k s) := by
    funext loc k
    simp
  rw [hfun, hrange, foldl_last]
  have hq0 : ((s : ℤ) : ℚ) ≠ 0 := by
    have : (0 : ℚ) < ((s : ℤ) : ℚ) := by exact_mod_cast (by omega : (0 : ℤ) < s)
    exact ne_of_gt this
  have hprog : (((s.toNat - 1 : ℕ) : ℚ) + 1) / ((s : ℤ) : ℚ) = 1 := by
    have hstep : ((s.toNat - 1 : ℕ) : ℚ) + 1 = ((s : ℤ) : ℚ) := by
      rw [← hcast]
      have : ((s.toNat - 1 : ℕ) : ℚ) = (s.toNat : ℚ) - 1 := by
        have h1 : 1 ≤ s.toNat := by omega
        push_cast [Nat.cast_sub h1]
        ring
      rw [this]
      push_cast
      ring
    rw [hstep, div_self hq0]
  unfold move_step
  simp only [hprog]
  have hx : (cur.1 : ℚ) + ((target.1 - cur.1 : ℤ) : ℚ) * 1 = ((target.1 : ℤ) : ℚ) := by
    push_cast
    ring
  have hy : (cur.2 : ℚ) + ((target.2 - cur.2 : ℤ) : ℚ) * 1 = ((target.2 : ℤ) : ℚ) := by
    push_cast
    ring
  rw [hx, hy, pytruncQ_intCast, pytruncQ_intCast]

/-- If the running flag is down or the cancellation break fires, the loop
breaks at its first check and the location is unchanged. -/
lemma move_taxi_halt (running halt : Bool) (cur target : ℤ × ℤ) (speed : ℚ)
    (h : running = false ∨ halt = true) :
    move_taxi_to_target running halt cur target speed = cur := by
  unfold move_taxi_to_target
  have h2 : 2 ≤ calculate_movement_steps cur target speed := steps_ge_two cur target speed
  have hpos : ¬ calculate_movement_steps cur target speed ≤ 0 := by omega
  rw [if_neg hpos]
  have hfun :
      (fun (loc : ℤ × ℤ) (k : ℕ) =>
        if running = false ∨ halt = true then loc
        else move_step cur target k (calculate_movement_steps cur target speed)) =
      (fun (loc : ℤ × ℤ) (_ : ℕ) => loc) := by
    funext loc k
    rw [if_pos h]
  rw [hfun, foldl_keep]

/-- C10: a movement call with an integer target coordinate that runs all of
its interpolation steps to completion (running flag stays true, order never
cancelled during the loop) leaves the vehicle exactly at the target, because
the step count `max(2, int(distance / speed))` is always at least 2 and the
last step uses interpolation progress `steps / steps = 1`. -/
theorem claim_C10 (cur target : ℤ × ℤ) (speed : ℚ) :
    move_taxi_to_target true false cur target speed = target
    ∧ 2 ≤ calculate_movement_steps cur target speed :=
  ⟨move_taxi_complete cur target speed, steps_ge_two cur target speed⟩

/-! ### Projection lemmas for the ride executor -/

lemma ride_move_orders (s : SimState) (tid : ℕ) (target : ℤ × ℤ) :
    (ride_move s tid target).orders = s.orders := rfl

lemma ride_move_clients (s : SimState) (tid : ℕ) (target : ℤ × ℤ) :
    (ride_move s tid target).clients = s.clients := rfl

lemma ride_move_status (s : SimState) (tid : ℕ) (target : ℤ × ℤ) (t : ℕ) :
    ((ride_move s tid target).taxis t).status = (s.taxis t).status := by
  unfold ride_move
  by_cases h : t = tid
  · subst h
    simp [Function.update_apply]
  · simp [Function.update_apply, h]

lemma ride_move_order (s : SimState) (tid : ℕ) (target : ℤ × ℤ) (t : ℕ) :
    ((ride_move s tid target).taxis t).order = (s.taxis t).order := by
  unfold ride_move
  by_cases h : t = tid
  · subst h
    simp [Function.update_apply]
  · simp [Function.update_apply, h]

/-- The cancellation path of `simulate_ride`: when the spawned-for order is
cancelled, the executor only sets the status to `MOVING_TO_CLIENT` at ride
start and possibly moves the taxi; at the post-pickup check it returns with
no cleanup whatsoever — the status stays `MOVING_TO_CLIENT`, the taxi's
order reference, all orders and all clients are left exactly as they were. -/
lemma simulate_ride_cancelled (s : SimState) (tid oid : ℕ)
    (hc : (s.orders oid).is_cancelled = true) :
    ((simulate_ride s tid oid none).taxis tid).status = TaxiStatus.MOVING_TO_CLIENT
    ∧ ((simulate_ride s tid oid none).taxis tid).order = (s.taxis tid).order
    ∧ (simulate_ride s tid oid none).orders = s.orders
    ∧ (simulate_ride s tid oid none).clients = s.clients := by
  simp only [simulate_ride, ride_move_orders, ride_move_clients,
    ride_move_status, ride_move_order, Function.update_apply, hc]
  simp [ride_move_orders, ride_move_clients, ride_move_status, ride_move_order,
    Function.update_apply]

/-- The normal-completion path of `simulate_ride`: with the order not
cancelled and no fault, the taxi ends `FREE` with its order reference
cleared, the orders map is untouched (in particular `order.taxi` is not
cleared), and the order's client is left with status `ON_RIDE` (set at
pickup; nothing ever sets `ARRIVED`). -/
lemma simulate_ride_completes (s : SimState) (tid oid : ℕ)
    (hc : (s.orders oid).is_cancelled = false) :
    ((simulate_ride s tid oid none).taxis tid).status = TaxiStatus.FREE
    ∧ ((simulate_ride s tid oid none).taxis tid).order = none
    ∧ (simulate_ride s tid oid none).orders = s.orders
    ∧ ((simulate_ride s tid oid none).clients (s.orders oid).client).status
        = ClientStatus.ON_RIDE := by
  simp only [simulate_ride, ride_move_orders, ride_move_clients,
    ride_move_status, ride_move_order, Function.update_apply, hc]
  simp [ride_move_orders, ride_move_clients, ride_move_status, ride_move_order,
    Function.update_apply]

/-! ### Projection lemmas for `Order.cancel` -/

lemma cancel_flag (s : SimState) (oid : ℕ) :
    ((Order.cancel s oid).orders oid).is_cancelled = true := by
  cases h : (s.orders oid).taxi with
  | none => simp [Order.cancel, Function.update_apply, h]
  | some t => simp [Order.cancel, Function.update_apply, h]

lemma cancel_release (s : SimState) (oid tid : ℕ)
    (h : (s.orders oid).taxi = some tid) :
    ((Order.cancel s oid).taxis tid).status = TaxiStatus.FREE
    ∧ ((Order.cancel s oid).taxis tid).order = none := by
  simp [Order.cancel, Function.update_apply, h]

/-! ## C1 -/

/-- C1 (amended): the dispatch worker does acquire the candidate vehicle's
lock before committing, but it does not re-check that the status is still
`FREE`: the commit block unconditionally sets the status to `BUSY`, stores
the order on the vehicle and the vehicle on the order, signals the
assignment event and spawns the ride — and never requeues — whatever the
vehicle's status is at commit time. -/
theorem claim_C1 (s : SimState) (did oid tid : ℕ)
    (hp : s.dpending did = some (oid, tid)) :
    ((commit_act s did).taxis tid).status = TaxiStatus.BUSY
    ∧ ((commit_act s did).taxis tid).order = some oid
    ∧ ((commit_act s did).orders oid).taxi = some tid
    ∧ ((commit_act s did).orders oid).assigned_event = true
    ∧ (commit_act s did).queue = s.queue
    ∧ (commit_act s did).rides = s.rides ++ [(tid, oid)] := by
  simp only [commit_act, hp]
  simp [Function.update_apply]

/-- C1 counterexample: from an initial state with two queued orders, one
free taxi and two dispatcher workers, both workers scan taxi 0 as `FREE`,
dispatcher 0 commits it to order 0, and then dispatcher 1 — although taxi 0
is now `BUSY`, not `FREE` — still commits it to order 1 instead of requeuing:
both orders end up referencing taxi 0 and the queue stays empty. -/
theorem claim_C1_cex :
    Reach s0C1 sC1d
    ∧ (sC1c.taxis 0).status = TaxiStatus.BUSY
    ∧ sC1c.dpending 1 = some (1, 0)
    ∧ (sC1d.taxis 0).order = some 1
    ∧ (sC1d.orders 0).taxi = some 0
    ∧ (sC1d.orders 1).taxi = some 0
    ∧ sC1d.queue = [] := by
  constructor
  · show Relation.ReflTransGen Step s0C1 sC1d
    have h1 : Step s0C1 sC1a := Step.scan s0C1 0 (by decide)
    have h2 : Step sC1a sC1b := Step.scan sC1a 1 (by decide)
    have h3 : Step sC1b sC1c := Step.commit sC1b 0
    have h4 : Step sC1c sC1d := Step.commit sC1c 1
    exact (((Relation.ReflTransGen.refl.tail h1).tail h2).tail h3).tail h4
  · decide

theorem claim_C1_witness :
    sC1b.dpending 0 = some (0, 0)
    ∧ (((commit_act sC1b 0).taxis 0).status = TaxiStatus.BUSY
       ∧ ((commit_act sC1b 0).taxis 0).order = some 0
       ∧ ((commit_act sC1b 0).orders 0).taxi = some 0
       ∧ ((commit_act sC1b 0).orders 0).assigned_event = true
       ∧ (commit_act sC1b 0).queue = sC1b.queue
       ∧ (commit_act sC1b 0).rides = sC1b.rides ++ [(0, 0)]) :=
  ⟨by decide, claim_C1 sC1b 0 0 0 (by decide)⟩

/-! ## C3 -/

/-- C3 (amended): calling `cancel` on an already-cancelled order keeps the
flag set, but it is not a no-op: `cancel` never clears the order's own taxi
reference, so the second call re-executes the release — if the order's taxi
reference is non-null it sets that taxi `FREE` and clears the taxi's order
reference, even if the taxi has since been assigned to a different order.
Only when the order's taxi reference is null is the second call a strict
no-op. -/
theorem claim_C3 (s : SimState) (oid : ℕ)
    (hc : (s.orders oid).is_cancelled = true) :
    ((Order.cancel s oid).orders oid).is_cancelled = true
    ∧ (∀ tid, (s.orders oid).taxi = some tid →
        ((Order.cancel s oid).taxis tid).status = TaxiStatus.FREE
        ∧ ((Order.cancel s oid).taxis tid).order = none)
    ∧ ((s.orders oid).taxi = none → Order.cancel s oid = s) := by
  refine ⟨cancel_flag s oid, fun tid h => cancel_release s oid tid h, fun h => ?_⟩
  have hval : ({ client := (s.orders oid).client,
                 from_location := (s.orders oid).from_location,
                 to_location := (s.orders oid).to_location,
                 taxi := none, is_cancelled := true,
                 assigned_event := (s.orders oid).assigned_event } : Order)
      = s.orders oid := by
    cases hso : s.orders oid
    rw [hso] at hc h
    simp only at hc h
    simp [hc, h]
  simp only [Order.cancel, h]
  simp only [Function.update_apply, if_pos rfl] at h ⊢
  simp [Order.cancel, h]
  rw [hval, Function.update_eq_self]

/-- C3 counterexample: order 0 is already cancelled and still references
taxi 0, which has meanwhile been assigned to order 1.  Re-running
`Order.cancel` on order 0 is not a no-op: it flips taxi 0 from `BUSY`
(serving order 1) back to `FREE` and wipes its order reference. -/
theorem claim_C3_cex :
    (sC3.orders 0).is_cancelled = true
    ∧ (sC3.taxis 0).status = TaxiStatus.BUSY
    ∧ (sC3.taxis 0).order = some 1
    ∧ ((Order.cancel sC3 0).taxis 0).status = TaxiStatus.FREE
    ∧ ((Order.cancel sC3 0).taxis 0).order = none := by
  decide

theorem claim_C3_witness :
    (sC3.orders 0).is_cancelled = true
    ∧ (((Order.cancel sC3 0).orders 0).is_cancelled = true
       ∧ (∀ tid, (sC3.orders 0).taxi = some tid →
           ((Order.cancel sC3 0).taxis tid).status = TaxiStatus.FREE
           ∧ ((Order.cancel sC3 0).taxis tid).order = none)
       ∧ ((sC3.orders 0).taxi = none → Order.cancel sC3 0 = sC3)) :=
  ⟨by decide, claim_C3 sC3 0 (by decide)⟩

/-! ## C4 -/

/-- C4 (amended): when the ride executor observes the cancelled flag at the
post-pickup check it stops and terminates without completing the ride, but
it performs no cleanup itself: the vehicle keeps the status
`MOVING_TO_CLIENT` set at ride start, the vehicle's order reference and the
whole orders and clients maps are unchanged.  Any release to `FREE` on
cancellation is done by `Order.cancel` alone, and the order's own vehicle
reference is never cleared by anyone. -/
theorem claim_C4 (s : SimState) (tid oid : ℕ)
    (hc : (s.orders oid).is_cancelled = true) :
    ((simulate_ride s tid oid none).taxis tid).status = TaxiStatus.MOVING_TO_CLIENT
    ∧ ((simulate_ride s tid oid none).taxis tid).order = (s.taxis tid).order
    ∧ (simulate_ride s tid oid none).orders = s.orders
    ∧ (simulate_ride s tid oid none).clients = s.clients :=
  simulate_ride_cancelled s tid oid hc

/-- C4 counterexample: in the post-assignment state `sC4` (taxi 0 `BUSY` on
the already-cancelled order 0) the executor's cancellation path leaves the
taxi with status `MOVING_TO_CLIENT` — not `FREE` — and leaves both
cross-references set. -/
theorem claim_C4_cex :
    (sC4.orders 0).is_cancelled = true
    ∧ ((simulate_ride sC4 0 0 none).taxis 0).status ≠ TaxiStatus.FREE
    ∧ ((simulate_ride sC4 0 0 none).taxis 0).order = some 0
    ∧ ((simulate_ride sC4 0 0 none).orders 0).taxi = some 0 := by
  have h := simulate_ride_cancelled sC4 0 0 (by decide)
  refine ⟨by decide, ?_, ?_, ?_⟩
  · rw [h.1]
    decide
  · rw [h.2.1]
    decide
  · rw [h.2.2.1]
    decide

theorem claim_C4_witness :
    (sC4.orders 0).is_cancelled = true
    ∧ (((simulate_ride sC4 0 0 none).taxis 0).status = TaxiStatus.MOVING_TO_CLIENT
       ∧ ((simulate_ride sC4 0 0 none).taxis 0).order = (sC4.taxis 0).order
       ∧ (simulate_ride sC4 0 0 none).orders = sC4.orders
       ∧ (simulate_ride sC4 0 0 none).clients = sC4.clients) :=
  ⟨by decide, claim_C4 sC4 0 0 (by decide)⟩

/-! ## C5 -/

/-- C5 (amended): on normal completion of the dropoff leg the executor sets
the vehicle's status to `FREE` and clears the vehicle's order reference,
but it does not clear the order's vehicle reference (the orders map is
untouched), and it never marks the client `Arrived`: the client keeps the
`ON_RIDE` status set at pickup; `ClientStatus.ARRIVED` is assigned nowhere
in the program. -/
theorem claim_C5 (s : SimState) (tid oid : ℕ)
    (hc : (s.orders oid).is_cancelled = false) :
    ((simulate_ride s tid oid none).taxis tid).status = TaxiStatus.FREE
    ∧ ((simulate_ride s tid oid none).taxis tid).order = none
    ∧ (simulate_ride s tid oid none).orders = s.orders
    ∧ ((simulate_ride s tid oid none).clients (s.orders oid).client).status
        = ClientStatus.ON_RIDE :=
  simulate_ride_completes s tid oid hc

/-- C5 counterexample: a ride on the healthy post-assignment state `sC5`
completes, yet the client's status is `ON_RIDE`, not `ARRIVED`, and the
order still references taxi 0 (the cross-reference is not cleared). -/
theorem claim_C5_cex :
    (sC5.orders 0).is_cancelled = false
    ∧ ((simulate_ride sC5 0 0 none).clients 0).status ≠ ClientStatus.ARRIVED
    ∧ ((simulate_ride sC5 0 0 none).clients 0).status = ClientStatus.ON_RIDE
    ∧ ((simulate_ride sC5 0 0 none).orders 0).taxi = some 0 := by
  have h := simulate_ride_completes sC5 0 0 (by decide)
  have hcl : (sC5.orders 0).client = 0 := by decide
  rw [hcl] at h
  refine ⟨by decide, ?_, h.2.2.2, ?_⟩
  · rw [h.2.2.2]
    decide
  · rw [h.2.2.1]
    decide

theorem claim_C5_witness :
    (sC5.orders 0).is_cancelled = false
    ∧ (((simulate_ride sC5 0 0 none).taxis 0).status = TaxiStatus.FREE
       ∧ ((simulate_ride sC5 0 0 none).taxis 0).order = none
       ∧ (simulate_ride sC5 0 0 none).orders = sC5.orders
       ∧ ((simulate_ride sC5 0 0 none).clients (sC5.orders 0).client).status
           = ClientStatus.ON_RIDE) :=
  ⟨by decide, claim_C5 sC5 0 0 (by decide)⟩

/-! ## C6 -/

/-- C6: any exception raised during a movement leg that is actually executed
is caught by the `except` handler of `simulate_ride`, which sets the
vehicle's status to `FREE` and clears its order reference before the task
terminates — a faulting ride never leaves a vehicle in a non-`FREE`
status.  (A dropoff-leg fault presupposes the dropoff leg is reached, i.e.
the order was not cancelled at the post-pickup check.) -/
theorem claim_C6 (s : SimState) (tid oid : ℕ) (fault : Option RideFault)
    (h : fault = some RideFault.duringPickup
         ∨ (fault = some RideFault.duringDropoff
            ∧ (s.orders oid).is_cancelled = false)) :
    ((simulate_ride s tid oid fault).taxis tid).status = TaxiStatus.FREE
    ∧ ((simulate_ride s tid oid fault).taxis tid).order = none := by
  rcases h with h | ⟨h, hc⟩
  · subst h
    simp only [simulate_ride]
    simp [Function.update_apply]
  · subst h
    simp only [simulate_ride, ride_move_orders, ride_move_clients,
      ride_move_status, ride_move_order, Function.update_apply, hc]
    simp [Function.update_apply]

theorem claim_C6_witness :
    ((simulate_ride sC5 0 0 (some RideFault.duringPickup)).taxis 0).status
      = TaxiStatus.FREE
    ∧ ((simulate_ride sC5 0 0 (some RideFault.duringPickup)).taxis 0).order
      = none :=
  claim_C6 sC5 0 0 (some RideFault.duringPickup) (Or.inl rfl)

/-! ## C7 -/

/-- C7: if the impatience monitor's wait times out (`assigned = false`) and
the order is not already cancelled, it cancels the order (setting the flag,
and releasing — `FREE`, order reference cleared, under the vehicle's lock —
any vehicle the order already references) and sets the client's status to
`REFUSED`; if the notification was observed (`assigned = true`) it exits
without any action. -/
theorem claim_C7 (s : SimState) (cid oid : ℕ)
    (hco : (s.clients cid).current_order = some oid) :
    ((s.orders oid).is_cancelled = false →
      ((client_waiting_worker s cid false).orders oid).is_cancelled = true
      ∧ (∀ tid, (s.orders oid).taxi = some tid →
          ((client_waiting_worker s cid false).taxis tid).status = TaxiStatus.FREE
          ∧ ((client_waiting_worker s cid false).taxis tid).order = none)
      ∧ ((client_waiting_worker s cid false).clients cid).status = ClientStatus.REFUSED)
    ∧ client_waiting_worker s cid true = s := by
  constructor
  · intro hnc
    simp only [client_waiting_worker, hco, hnc]
    refine ⟨cancel_flag s oid, fun tid h => cancel_release s oid tid h, ?_⟩
    simp [Function.update_apply]
  · simp [client_waiting_worker, hco]

theorem claim_C7_witness :
    (sC5.clients 0).current_order = some 0
    ∧ (sC5.orders 0).is_cancelled = false
    ∧ ((client_waiting_worker sC5 0 false).orders 0).is_cancelled = true
    ∧ ((client_waiting_worker sC5 0 false).clients 0).status = ClientStatus.REFUSED
    ∧ ((client_waiting_worker sC5 0 false).taxis 0).status = TaxiStatus.FREE
    ∧ client_waiting_worker sC5 0 true = sC5 := by
  refine ⟨by decide, by decide, ?_, ?_, ?_, ?_⟩
  · exact ((claim_C7 sC5 0 0 (by decide)).1 (by decide)).1
  · exact ((claim_C7 sC5 0 0 (by decide)).1 (by decide)).2.2
  · exact (((claim_C7 sC5 0 0 (by decide)).1 (by decide)).2.1 0 (by decide)).1
  · exact (claim_C7 sC5 0 0 (by decide)).2

/-! ## C9 -/

/-- C9: a dequeued order whose cancelled flag is set is dropped — no
assignment, no requeue, no change to any vehicle (the resulting state is the
original one with only the order removed from the queue's head); a dequeued
live order for which the nearest-free search finds nothing is re-enqueued,
itself and everything else unchanged, at the tail of the queue. -/
theorem claim_C9 (s : SimState) (did oid : ℕ) (rest : List ℕ)
    (hq : s.queue = oid :: rest) :
    ((s.orders oid).is_cancelled = true →
      scan_act s did = { s with queue := rest })
    ∧ ((s.orders oid).is_cancelled = false →
      find_nearest_taxi s (s.orders oid).from_location = none →
      scan_act s did = { s with queue := rest ++ [oid] }) := by
  constructor
  · intro hc
    simp [scan_act, hq, hc]
  · intro hc hf
    simp [scan_act, hq, hc, hf]

theorem claim_C9_witness :
    sC9.queue = 0 :: ([] : List ℕ)
    ∧ (sC9.orders 0).is_cancelled = true
    ∧ scan_act sC9 0 = { sC9 with queue := ([] : List ℕ) } :=
  ⟨by decide, by decide, (claim_C9 sC9 0 0 [] (by decide)).1 (by decide)⟩

/-! ## C8 -/

lemma dist_sq_nonneg (a b : ℤ × ℤ) : 0 ≤ dist_sq a b := by
  unfold dist_sq
  positivity

/-- Real distances compare exactly as the squared distances do, because
`Real.sqrt` is monotone on the nonnegative reals. -/
lemma calculate_distance_le_iff (p q r : ℤ × ℤ) :
    calculate_distance p r ≤ calculate_distance q r ↔ dist_sq p r ≤ dist_sq q r := by
  unfold calculate_distance
  rw [Real.sqrt_le_sqrt_iff (by exact_mod_cast dist_sq_nonneg q r)]
  exact Int.cast_le

lemma scanStep_eq_none (tx : ℕ → Taxi) (target : ℤ × ℤ)
    (acc : Option (ℕ × ℤ)) (t : ℕ) :
    scanStep tx target acc t = none ↔
      acc = none ∧ (tx t).status ≠ TaxiStatus.FREE := by
  by_cases hf : (tx t).status = TaxiStatus.FREE
  · cases acc with
    | none => simp [scanStep, hf]
    | some p =>
        obtain ⟨b, d⟩ := p
        by_cases hd : dist_sq (tx t).location target < d <;> simp [scanStep, hf, hd]
  · cases acc <;> simp [scanStep, hf]

lemma scanFold_none (tx : ℕ → Taxi) (target : ℤ × ℤ) :
    ∀ (l : List ℕ) (acc : Option (ℕ × ℤ)),
      scanFold tx target l acc = none ↔
        (acc = none ∧ ∀ tid ∈ l, (tx tid).status ≠ TaxiStatus.FREE) := by
  intro l
  induction l with
  | nil =>
      intro acc
      simp [scanFold]
  | cons t rest ih =>
      intro acc
      rw [scanFold, ih, scanStep_eq_none]
      constructor
      · rintro ⟨⟨h1, h2⟩, h3⟩
        refine ⟨h1, ?_⟩
        intro tid htid
        rcases List.mem_cons.mp htid with rfl | hm
        · exact h2
        · exact h3 tid hm
      · rintro ⟨h1, hall⟩
        exact ⟨⟨h1, hall t (List.mem_cons_self t rest)⟩,
          fun tid hm => hall tid (List.mem_cons_of_mem t hm)⟩

/-- The loop invariant of the scan: a well-formed accumulator stays
well-formed, and the final accumulator holds a free taxi of minimal squared
distance among the free taxis inspected. -/
lemma scanFold_some (tx : ℕ → Taxi) (target : ℤ × ℤ) :
    ∀ (l : List ℕ) (acc : Option (ℕ × ℤ)),
      (∀ b0 d0, acc = some (b0, d0) →
        d0 = dist_sq (tx b0).location target ∧ (tx b0).status = TaxiStatus.FREE) →
      ∀ b d, scanFold tx target l acc = some (b, d) →
        d = dist_sq (tx b).location target
        ∧ (tx b).status = TaxiStatus.FREE
        ∧ (acc = some (b, d) ∨ b ∈ l)
        ∧ (∀ b0 d0, acc = some (b0, d0) → d ≤ d0)
        ∧ (∀ tid ∈ l, (tx tid).status = TaxiStatus.FREE →
            d ≤ dist_sq (tx tid).location target) := by
  intro l
  induction l with
  | nil =>
      intro acc hacc b d h
      rw [scanFold] at h
      obtain ⟨h1, h2⟩ := hacc b d h
      refine ⟨h1, h2, Or.inl h, ?_, ?_⟩
      · intro b0 d0 h0
        rw [h] at h0
        have : b = b0 ∧ d = d0 := by simpa using h0
        exact le_of_eq this.2
      · intro tid htid
        exact absurd htid (List.not_mem_nil tid)
  | cons t rest ih =>
      intro acc hacc b d h
      rw [scanFold] at h
      have hacc' : ∀ b0 d0, scanStep tx target acc t = some (b0, d0) →
          d0 = dist_sq (tx b0).location target ∧ (tx b0).status = TaxiStatus.FREE := by
        intro b0 d0 h0
        by_cases hf : (tx t).status = TaxiStatus.FREE
        · cases hca : acc with
          | none =>
              rw [hca] at h0
              simp [scanStep, hf] at h0
              obtain ⟨hb0, hd0⟩ := h0
              subst hb0
              exact ⟨hd0.symm, hf⟩
          | some p =>
              obtain ⟨b1, d1⟩ := p
              rw [hca] at h0
              by_cases hd : dist_sq (tx t).location target < d1
              · simp [scanStep, hf, hd] at h0
                obtain ⟨hb0, hd0⟩ := h0
                subst hb0
                exact ⟨hd0.symm, hf⟩
              · simp [scanStep, hf, hd] at h0
                obtain ⟨hb0, hd0⟩ := h0
                exact hacc b0 d0 (by rw [hca, hb0, hd0])
        · have hst : scanStep tx target acc t = acc := by simp [scanStep, hf]
          exact hacc b0 d0 (hst ▸ h0)
      obtain ⟨h1, h2, h3, h4, h5⟩ := ih (scanStep tx target acc t) hacc' b d h
      refine ⟨h1, h2, ?_, ?_, ?_⟩
      · -- origin of the winner
        rcases h3 with heq | hmem
        · by_cases hf : (tx t).status = TaxiStatus.FREE
          · cases hca : acc with
            | none =>
                rw [hca] at heq
                simp [scanStep, hf] at heq
                exact Or.inr (heq.1 ▸ List.mem_cons_self t rest)
            | some p =>
                obtain ⟨b1, d1⟩ := p
                rw [hca] at heq
                by_cases hd : dist_sq (tx t).location target < d1
                · simp [scanStep, hf, hd] at heq
                  exact Or.inr (heq.1 ▸ List.mem_cons_self t rest)
                · simp [scanStep, hf, hd] at heq
                  exact Or.inl (by rw [heq.1, heq.2])
          · have hst : scanStep tx target acc t = acc := by simp [scanStep, hf]
            exact Or.inl (hst ▸ heq)
        · exact Or.inr (List.mem_cons_of_mem t hmem)
      · -- never worse than the incoming accumulator
        intro b0 d0 h0
        by_cases hf : (tx t).status = TaxiStatus.FREE
        · by_cases hd : dist_sq (tx t).location target < d0
          · have hstep : scanStep tx target acc t
                = some (t, dist_sq (tx t).location target) := by
              rw [h0]
              simp [scanStep, hf, hd]
            exact le_trans (h4 t _ hstep) (le_of_lt hd)
          · have hstep : scanStep tx target acc t = some (b0, d0) := by
              rw [h0]
              simp [scanStep, hf, hd]
            exact h4 b0 d0 hstep
        · have hst : scanStep tx target acc t = acc := by simp [scanStep, hf]
          exact h4 b0 d0 (hst.trans h0)
      · -- minimal among all inspected free taxis
        intro tid htid hfree
        rcases List.mem_cons.mp htid with rfl | hm
        · cases hca : acc with
          | none =>
              exact h4 tid (dist_sq (tx tid).location target)
                (by rw [hca]; simp [scanStep, hfree])
          | some p =>
              obtain ⟨b1, d1⟩ := p
              by_cases hd : dist_sq (tx tid).location target < d1
              · exact h4 tid (dist_sq (tx tid).location target)
                  (by rw [hca]; simp [scanStep, hfree, hd])
              · have hle := h4 b1 d1 (by rw [hca]; simp [scanStep, hfree, hd])
                exact le_trans hle (not_lt.mp hd)
        · exact h5 tid hm hfree

/-- C8: the nearest-free search returns a fleet vehicle observed `FREE`
whose (real, `sqrt`-computed) distance to the target is minimal among all
fleet vehicles observed `FREE`, and returns `none` exactly when no fleet
vehicle is `FREE`; the scan phase of the dispatcher modifies no vehicle (the
search itself is a pure read of the state). -/
theorem claim_C8 (s : SimState) (target : ℤ × ℤ) :
    (∀ tid, find_nearest_taxi s target = some tid →
      tid ∈ s.fleet ∧ (s.taxis tid).status = TaxiStatus.FREE
      ∧ ∀ t ∈ s.fleet, (s.taxis t).status = TaxiStatus.FREE →
          calculate_distance (s.taxis tid).location target
            ≤ calculate_distance (s.taxis t).location target)
    ∧ (find_nearest_taxi s target = none ↔
        ∀ tid ∈ s.fleet, (s.taxis tid).status ≠ TaxiStatus.FREE)
    ∧ (∀ did, (scan_act s did).taxis = s.taxis) := by
  refine ⟨?_, ?_, ?_⟩
  · intro tid h
    unfold find_nearest_taxi at h
    cases hsf : scanFold s.taxis target s.fleet none with
    | none => rw [hsf] at h; cases h
    | some p =>
        obtain ⟨b, d⟩ := p
        rw [hsf] at h
        have hb : b = tid := by simpa using h
        subst hb
        obtain ⟨h1, h2, h3, _, h5⟩ :=
          scanFold_some s.taxis target s.fleet none (by intro b0 d0 h0; cases h0) b d hsf
        refine ⟨?_, h2, ?_⟩
        · rcases h3 with heq | hmem
          · cases heq
          · exact hmem
        · intro t ht htfree
          rw [calculate_distance_le_iff]
          rw [← h1]
          exact h5 t ht htfree
  · unfold find_nearest_taxi
    rw [Option.map_eq_none', scanFold_none]
    simp
  · intro did
    cases hq : s.queue with
    | nil => simp [scan_act, hq]
    | cons o rest =>
        by_cases hc : (s.orders o).is_cancelled = true
        · simp [scan_act, hq, hc]
        · cases hf : find_nearest_taxi s (s.orders o).from_location with
          | none => simp [scan_act, hq, hc, hf]
          | some t => simp [scan_act, hq, hc, hf]

theorem claim_C8_witness :
    find_nearest_taxi sC8 (0, 0) = some 1
    ∧ (1 ∈ sC8.fleet ∧ (sC8.taxis 1).status = TaxiStatus.FREE
       ∧ ∀ t ∈ sC8.fleet, (sC8.taxis t).status = TaxiStatus.FREE →
           calculate_distance (sC8.taxis 1).location (0, 0)
             ≤ calculate_distance (sC8.taxis t).location (0, 0)) :=
  ⟨by decide, (claim_C8 sC8 (0, 0)).1 1 (by decide)⟩

/-! ## C2

The invariant proof.  First, pointwise descriptions of the effect of each
atomic step on the taxi, order, queue and pending maps. -/

lemma cancel_orders_apply (s : SimState) (oid y : ℕ) :
    (Order.cancel s oid).orders y =
      if y = oid then { s.orders oid with is_cancelled := true } else s.orders y := by
  cases hx : (s.orders oid).taxi <;>
    simp [Order.cancel, Function.update_apply, hx]

lemma cancel_taxis_none (s : SimState) (oid : ℕ)
    (hx : (s.orders oid).taxi = none) :
    (Order.cancel s oid).taxis = s.taxis := by
  simp [Order.cancel, hx]

lemma cancel_taxis_some (s : SimState) (oid t x : ℕ)
    (hx : (s.orders oid).taxi = some t) :
    (Order.cancel s oid).taxis x =
      if x = t then { s.taxis t with status := TaxiStatus.FREE, order := none }
      else s.taxis x := by
  simp [Order.cancel, Function.update_apply, hx]

lemma cancel_queue (s : SimState) (oid : ℕ) :
    (Order.cancel s oid).queue = s.queue := by
  cases hx : (s.orders oid).taxi <;> simp [Order.cancel, hx]

lemma cancel_dpending (s : SimState) (oid : ℕ) :
    (Order.cancel s oid).dpending = s.dpending := by
  cases hx : (s.orders oid).taxi <;> simp [Order.cancel, hx]

lemma commit_taxis_apply (s : SimState) (did oid tid x : ℕ)
    (hp : s.dpending did = some (oid, tid)) :
    (commit_act s did).taxis x =
      if x = tid then { s.taxis tid with status := TaxiStatus.BUSY, order := some oid }
      else s.taxis x := by
  simp [commit_act, hp, Function.update_apply]

lemma commit_orders_apply (s : SimState) (did oid tid y : ℕ)
    (hp : s.dpending did = some (oid, tid)) :
    (commit_act s did).orders y =
      if y = oid then { s.orders oid with taxi := some tid, assigned_event := true }
      else s.orders y := by
  simp only [commit_act, hp]
  by_cases hy : y = oid <;> simp [Function.update_apply, hy]

lemma commit_queue (s : SimState) (did oid tid : ℕ)
    (hp : s.dpending did = some (oid, tid)) :
    (commit_act s did).queue = s.queue := by
  simp [commit_act, hp]

lemma commit_dpending (s : SimState) (did oid tid : ℕ)
    (hp : s.dpending did = some (oid, tid)) :
    (commit_act s did).dpending = Function.update s.dpending did none := by
  simp [commit_act, hp]

/-- `Order.cancel` preserves the strengthened invariant. -/
lemma strongInv_cancel (s : SimState) (oid : ℕ) (h : StrongInv s) :
    StrongInv (Order.cancel s oid) := by
  obtain ⟨h1, h2, hQ, hP, hT, hN, hQP, hPP⟩ := h
  have hoev : ∀ y, ((Order.cancel s oid).orders y).assigned_event
      = (s.orders y).assigned_event := by
    intro y
    rw [cancel_orders_apply]
    by_cases hy : y = oid <;> simp [hy]
  have hotx : ∀ y, ((Order.cancel s oid).orders y).taxi = (s.orders y).taxi := by
    intro y
    rw [cancel_orders_apply]
    by_cases hy : y = oid <;> simp [hy]
  refine ⟨?_, ?_, ?_, ?_, ?_, ?_, ?_, ?_⟩
  · -- Inv1
    intro x
    cases hx : (s.orders oid).taxi with
    | none =>
        rw [cancel_taxis_none s oid hx]
        exact h1 x
    | some t =>
        rw [cancel_taxis_some s oid t x hx]
        by_cases hxt : x = t
        · rw [if_pos hxt]
          simp
        · rw [if_neg hxt]
          exact h1 x
  · -- Inv2
    intro x oid' hx'
    rw [hotx oid']
    cases hx : (s.orders oid).taxi with
    | none =>
        rw [cancel_taxis_none s oid hx] at hx'
        exact h2 x oid' hx'
    | some t =>
        rw [cancel_taxis_some s oid t x hx] at hx'
        by_cases hxt : x = t
        · rw [if_pos hxt] at hx'
          simp at hx'
        · rw [if_neg hxt] at hx'
          exact h2 x oid' hx'
  · -- InvQ
    intro y hy
    rw [hoev y]
    have hy' : y ∈ s.queue := by
      rw [← cancel_queue s oid]
      exact hy
    exact hQ y hy'
  · -- InvP
    intro did' oid' tid' hp'
    rw [hoev oid']
    rw [cancel_dpending] at hp'
    exact hP did' oid' tid' hp'
  · -- InvT
    intro x oid' hx'
    rw [hoev oid']
    cases hx : (s.orders oid).taxi with
    | none =>
        rw [cancel_taxis_none s oid hx] at hx'
        exact hT x oid' hx'
    | some t =>
        rw [cancel_taxis_some s oid t x hx] at hx'
        by_cases hxt : x = t
        · rw [if_pos hxt] at hx'
          simp at hx'
        · rw [if_neg hxt] at hx'
          exact hT x oid' hx'
  · -- InvN
    show (Order.cancel s oid).queue.Nodup
    rw [cancel_queue]
    exact hN
  · -- InvQP
    intro did' oid' tid' hp' hm
    rw [cancel_dpending] at hp'
    have hm' : oid' ∈ s.queue := by
      rw [← cancel_queue s oid]
      exact hm
    exact hQP did' oid' tid' hp' hm'
  · -- InvPP
    intro d1 d2 o' t1 t2 hne hp1 hp2
    rw [cancel_dpending] at hp1 hp2
    exact hPP d1 d2 o' t1 t2 hne hp1 hp2

/-- The impatience-monitor step preserves the strengthened invariant. -/
lemma strongInv_client (s : SimState) (cid : ℕ) (b : Bool) (h : StrongInv s) :
    StrongInv (client_waiting_worker s cid b) := by
  cases hco : (s.clients cid).current_order with
  | none =>
      rw [show client_waiting_worker s cid b = s from by
        simp [client_waiting_worker, hco]]
      exact h
  | some oid =>
      by_cases hcond : b = false ∧ (s.orders oid).is_cancelled = false
      · obtain ⟨hb, hc⟩ := hcond
        subst hb
        have he : client_waiting_worker s cid false =
            { Order.cancel s oid with
                clients := Function.update (Order.cancel s oid).clients cid
                  { (Order.cancel s oid).clients cid with status := ClientStatus.REFUSED } } := by
          simp [client_waiting_worker, hco, hc]
        rw [he]
        exact strongInv_cancel s oid h
      · rw [show client_waiting_worker s cid b = s from by
          simp only [client_waiting_worker, hco]
          rw [if_neg hcond]]
        exact h

/-- The commit step preserves the strengthened invariant. -/
lemma strongInv_commit (s : SimState) (did : ℕ) (h : StrongInv s) :
    StrongInv (commit_act s did) := by
  obtain ⟨h1, h2, hQ, hP, hT, hN, hQP, hPP⟩ := h
  cases hp : s.dpending did with
  | none =>
      rw [show commit_act s did = s from by simp [commit_act, hp]]
      exact ⟨h1, h2, hQ, hP, hT, hN, hQP, hPP⟩
  | some p =>
      obtain ⟨oid, tid⟩ := p
      refine ⟨?_, ?_, ?_, ?_, ?_, ?_, ?_, ?_⟩
      · -- Inv1
        intro x
        rw [commit_taxis_apply s did oid tid x hp]
        by_cases hx : x = tid
        · rw [if_pos hx]
          simp
        · rw [if_neg hx]
          exact h1 x
      · -- Inv2
        intro x oid' hx'
        by_cases hx : x = tid
        · rw [commit_taxis_apply s did oid tid x hp, if_pos hx] at hx'
          have hoid : oid' = oid := by
            have h' : some oid = some oid' := hx'
            simpa using h'.symm
          rw [hoid, commit_orders_apply s did oid tid oid hp, if_pos rfl]
          simp [hx]
        · rw [commit_taxis_apply s did oid tid x hp, if_neg hx] at hx'
          by_cases hoo : oid' = oid
          · subst hoo
            exfalso
            have hev := hT x oid' hx'
            rw [hP did oid' tid hp] at hev
            cases hev
          · rw [commit_orders_apply s did oid tid oid' hp, if_neg hoo]
            exact h2 x oid' hx'
      · -- InvQ
        intro y hy
        have hy' : y ∈ s.queue := by
          rw [← commit_queue s did oid tid hp]
          exact hy
        rw [commit_orders_apply s did oid tid y hp]
        by_cases hy2 : y = oid
        · subst hy2
          exact absurd hy' (hQP did y tid hp)
        · rw [if_neg hy2]
          exact hQ y hy'
      · -- InvP
        intro did' oid' tid' hp'
        rw [commit_dpending s did oid tid hp, Function.update_apply] at hp'
        by_cases hd : did' = did
        · rw [if_pos hd] at hp'
          cases hp'
        · rw [if_neg hd] at hp'
          rw [commit_orders_apply s did oid tid oid' hp]
          by_cases hoo : oid' = oid
          · subst hoo
            exact (hPP did' did oid' tid' tid hd hp' hp).elim
          · rw [if_neg hoo]
            exact hP did' oid' tid' hp'
      · -- InvT
        intro x oid' hx'
        by_cases hx : x = tid
        · rw [commit_taxis_apply s did oid tid x hp, if_pos hx] at hx'
          have hoid : oid' = oid := by
            have h' : some oid = some oid' := hx'
            simpa using h'.symm
          rw [hoid, commit_orders_apply s did oid tid oid hp, if_pos rfl]
        · rw [commit_taxis_apply s did oid tid x hp, if_neg hx] at hx'
          rw [commit_orders_apply s did oid tid oid' hp]
          by_cases hoo : oid' = oid
          · rw [if_pos hoo]
          · rw [if_neg hoo]
            exact hT x oid' hx'
      · -- InvN
        show (commit_act s did).queue.Nodup
        rw [commit_queue s did oid tid hp]
        exact hN
      · -- InvQP
        intro did' oid' tid' hp' hm
        rw [commit_dpending s did oid tid hp, Function.update_apply] at hp'
        have hm' : oid' ∈ s.queue := by
          rw [← commit_queue s did oid tid hp]
          exact hm
        by_cases hd : did' = did
        · rw [if_pos hd] at hp'
          cases hp'
        · rw [if_neg hd] at hp'
          exact hQP did' oid' tid' hp' hm'
      · -- InvPP
        intro d1 d2 o' t1 t2 hne hp1 hp2
        rw [commit_dpending s did oid tid hp, Function.update_apply] at hp1 hp2
        by_cases hd1 : d1 = did
        · rw [if_pos hd1] at hp1
          cases hp1
        · rw [if_neg hd1] at hp1
          by_cases hd2 : d2 = did
          · rw [if_pos hd2] at hp2
            cases hp2
          · rw [if_neg hd2] at hp2
            exact hPP d1 d2 o' t1 t2 hne hp1 hp2

/-- The scan step preserves the strengthened invariant. -/
lemma strongInv_scan (s : SimState) (did : ℕ) (h : StrongInv s) :
    StrongInv (scan_act s did) := by
  obtain ⟨h1, h2, hQ, hP, hT, hN, hQP, hPP⟩ := h
  cases hq : s.queue with
  | nil =>
      rw [show scan_act s did = s from by simp [scan_act, hq]]
      exact ⟨h1, h2, hQ, hP, hT, hN, hQP, hPP⟩
  | cons o rest =>
      have ho_mem : o ∈ s.queue := by
        rw [hq]
        exact List.mem_cons_self o rest
      have hnodup : s.queue.Nodup := hN
      rw [hq] at hnodup
      obtain ⟨honr, hrest⟩ := List.nodup_cons.mp hnodup
      by_cases hc : (s.orders o).is_cancelled = true
      · have he : scan_act s did = { s with queue := rest } := by
          simp [scan_act, hq, hc]
        rw [he]
        refine ⟨h1, h2, ?_, hP, hT, hrest, ?_, hPP⟩
        · intro y hy
          exact hQ y (by rw [hq]; exact List.mem_cons_of_mem o hy)
        · intro did' oid' tid' hp' hm
          exact hQP did' oid' tid' hp' (by rw [hq]; exact List.mem_cons_of_mem o hm)
      · cases hf : find_nearest_taxi s (s.orders o).from_location with
        | none =>
            have he : scan_act s did = { s with queue := rest ++ [o] } := by
              simp [scan_act, hq, hc, hf]
            rw [he]
            refine ⟨h1, h2, ?_, hP, hT, ?_, ?_, hPP⟩
            · intro y hy
              rcases List.mem_append.mp hy with hy1 | hy2
              · exact hQ y (by rw [hq]; exact List.mem_cons_of_mem o hy1)
              · have hyo : y = o := by simpa using hy2
                subst hyo
                exact hQ y ho_mem
            · refine List.Nodup.append hrest (List.nodup_singleton o) ?_
              intro a ha hb
              have hao : a = o := by simpa using hb
              subst hao
              exact honr ha
            · intro did' oid' tid' hp' hm
              rcases List.mem_append.mp hm with hm1 | hm2
              · exact hQP did' oid' tid' hp' (by rw [hq]; exact List.mem_cons_of_mem o hm1)
              · have hmo : oid' = o := by simpa using hm2
                subst hmo
                exact hQP did' oid' tid' hp' ho_mem
        | some t =>
            have he : scan_act s did =
                { s with queue := rest,
                         dpending := Function.update s.dpending did (some (o, t)) } := by
              simp [scan_act, hq, hc, hf]
            rw [he]
            refine ⟨h1, h2, ?_, ?_, hT, hrest, ?_, ?_⟩
            · intro y hy
              exact hQ y (by rw [hq]; exact List.mem_cons_of_mem o hy)
            · -- InvP
              intro did' oid' tid' hp'
              have hp'' : Function.update s.dpending did (some (o, t)) did'
                  = some (oid', tid') := hp'
              rw [Function.update_apply] at hp''
              by_cases hdd : did' = did
              · rw [if_pos hdd] at hp''
                have hoo : o = oid' ∧ t = tid' := by simpa using hp''
                have := hQ o ho_mem
                exact hoo.1 ▸ this
              · rw [if_neg hdd] at hp''
                exact hP did' oid' tid' hp''
            · -- InvQP
              intro did' oid' tid' hp' hm
              have hp'' : Function.update s.dpending did (some (o, t)) did'
                  = some (oid', tid') := hp'
              rw [Function.update_apply] at hp''
              by_cases hdd : did' = did
              · rw [if_pos hdd] at hp''
                have hoo : o = oid' := by
                  have : o = oid' ∧ t = tid' := by simpa using hp''
                  exact this.1
                cases hoo
                exact honr hm
              · rw [if_neg hdd] at hp''
                exact hQP did' oid' tid' hp'' (by rw [hq]; exact List.mem_cons_of_mem o hm)
            · -- InvPP
              intro d1 d2 o' t1 t2 hne hp1 hp2
              have hp1' : Function.update s.dpending did (some (o, t)) d1
                  = some (o', t1) := hp1
              have hp2' : Function.update s.dpending did (some (o, t)) d2
                  = some (o', t2) := hp2
              rw [Function.update_apply] at hp1' hp2'
              by_cases hd1 : d1 = did
              · rw [if_pos hd1] at hp1'
                have ho1 : o = o' := by
                  have : o = o' ∧ t = t1 := by simpa using hp1'
                  exact this.1
                by_cases hd2 : d2 = did
                · exact hne (hd1.trans hd2.symm)
                · rw [if_neg hd2] at hp2'
                  exact hQP d2 o' t2 hp2' (ho1 ▸ ho_mem)
              · rw [if_neg hd1] at hp1'
                by_cases hd2 : d2 = did
                · rw [if_pos hd2] at hp2'
                  have ho2 : o = o' := by
                    have : o = o' ∧ t = t2 := by simpa using hp2'
                    exact this.1
                  exact hQP d1 o' t1 hp1' (ho2 ▸ ho_mem)
                · rw [if_neg hd2] at hp2'
                  exact hPP d1 d2 o' t1 t2 hne hp1' hp2'

lemma strongInv_step (s s' : SimState) (h : StrongInv s) (hs : StepNR s s') :
    StrongInv s' := by
  cases hs with
  | scan did hd => exact strongInv_scan s did h
  | commit did => exact strongInv_commit s did h
  | client cid b => exact strongInv_client s cid b h

lemma strongInv_reach (s s' : SimState) (h0 : StrongInv s) (hr : ReachNR s s') :
    StrongInv s' := by
  have hr' : Relation.ReflTransGen StepNR s s' := hr
  clear hr
  induction hr' with
  | refl => exact h0
  | tail _ hstep ih => exact strongInv_step _ _ ih hstep

lemma init_strongInv (s : SimState) (h : Init s) : StrongInv s := by
  obtain ⟨ht, ho, hn, hd⟩ := h
  refine ⟨?_, ?_, ?_, ?_, ?_, hn, ?_, ?_⟩
  · intro tid
    rw [(ht tid).1, (ht tid).2]
    simp
  · intro tid oid hx
    rw [(ht tid).2] at hx
    cases hx
  · intro oid _
    exact (ho oid).2
  · intro did oid tid hp
    rw [hd did] at hp
    cases hp
  · intro tid oid hx
    rw [(ht tid).2] at hx
    cases hx
  · intro did oid tid hp
    rw [hd did] at hp
    cases hp
  · intro d1 d2 o' t1 t2 _ hp1 _
    rw [hd d1] at hp1
    cases hp1

/-- C2 (amended): in every state reachable from a well-formed initial state
by dispatcher scan and commit steps and impatience-monitor steps, a
vehicle's order reference is non-null iff its status is not `FREE`, and a
non-null order reference always points to an order whose vehicle reference
points back to that vehicle.  (Ride-executor steps break the first half:
see the counterexample.) -/
theorem claim_C2 (s0 s : SimState) (h0 : Init s0) (hr : ReachNR s0 s) :
    (∀ tid, (s.taxis tid).order ≠ none ↔ (s.taxis tid).status ≠ TaxiStatus.FREE)
    ∧ (∀ tid oid, (s.taxis tid).order = some oid →
        (s.orders oid).taxi = some tid) := by
  have h := strongInv_reach s0 s (init_strongInv s0 h0) hr
  exact ⟨h.1, h.2.1⟩

/-- C2 counterexample: a reachable state of the full system in which a
vehicle has a non-`FREE` status and a null order reference.  The trace:
dispatcher 0 scans and commits order 0 to taxi 0; client 0's wait loses the
race against the assignment notification and cancels the freshly assigned
order, releasing taxi 0 (`FREE`, no order); the already-spawned ride
executor then runs, sets taxi 0 to `MOVING_TO_CLIENT`, moves it, observes
the cancellation and returns without cleanup — leaving taxi 0 permanently
`MOVING_TO_CLIENT` with no order reference. -/
theorem claim_C2_cex :
    Reach s0C2 sC2d
    ∧ (sC2d.taxis 0).status ≠ TaxiStatus.FREE
    ∧ (sC2d.taxis 0).order = none := by
  have hrw : sC2d = simulate_ride
      ({ sC2c with rides := sC2c.rides.erase (0, 0) }) 0 0 none := rfl
  have hc : ((({ sC2c with rides := sC2c.rides.erase (0, 0) }) : SimState).orders 0).is_cancelled
      = true := by decide
  have h := simulate_ride_cancelled
    ({ sC2c with rides := sC2c.rides.erase (0, 0) }) 0 0 hc
  refine ⟨?_, ?_, ?_⟩
  · show Relation.ReflTransGen Step s0C2 sC2d
    have h1 : Step s0C2 sC2a := Step.scan s0C2 0 (by decide)
    have h2 : Step sC2a sC2b := Step.commit sC2a 0
    have h3 : Step sC2b sC2c := Step.client sC2b 0 false
    have h4 : Step sC2c sC2d := Step.ride sC2c 0 0 none (by decide)
    exact (((Relation.ReflTransGen.refl.tail h1).tail h2).tail h3).tail h4
  · rw [hrw, h.1]
    decide
  · rw [hrw, h.2.1]
    decide

theorem claim_C2_witness :
    Init s0C2
    ∧ ((∀ tid, (s0C2.taxis tid).order ≠ none ↔ (s0C2.taxis tid).status ≠ TaxiStatus.FREE)
       ∧ (∀ tid oid, (s0C2.taxis tid).order = some oid →
           (s0C2.orders oid).taxi = some tid)) := by
  have hInit : Init s0C2 :=
    ⟨fun _ => ⟨rfl, rfl⟩, fun _ => ⟨rfl, rfl⟩, by decide, fun _ => rfl⟩
  exact ⟨hInit, claim_C2 s0C2 s0C2 hInit Relation.ReflTransGen.refl⟩

end TaxisThread
